import Mathlib

/-!
Verification of the grpcwebproxy specification against a shallow embedding
of `src/main.go` (package main of venezia/grpcwebproxy).

Modelling notes on the embedding:

* gRPC metadata (`metadata.MD`, a Go `map[string][]string`) is modelled as
  an association list `MD := List (String × List String)`; Go map keys are
  unique, but none of the operations used by the program (copy, delete,
  lookup) need that assumption.
* A Go `context.Context` is modelled as a record carrying the pieces the
  program observes: deadline, cancellation state, the incoming metadata
  (if any) and the outgoing metadata (if any). `metadata.NewOutgoingContext`
  derives a child context, which delegates deadline/cancellation to its
  parent; the model therefore only replaces the outgoing-metadata field.
* `grpc.ClientConn` is modelled as a record holding the dial target; a Go
  nil pointer is modelled by `Option` where nilability matters.
* Fallible Go functions returning `(T, error)` are modelled as
  `Except String T` (or `T × Option String` where the Go code pairs a
  value with an error), and `panic` as `Option` with `none` for the panic.
* Library helpers the program calls (`stringz.SliceEqual`,
  `stringz.SliceContains`, `strings.Split`, `os.Expand`/`os.ExpandEnv`,
  `pflag.FlagSet.GetString`, the grpc-proxy raw codec) are embedded from
  their published sources, since `src/main.go` only glues them together.
-/

/-- gRPC metadata: Go `metadata.MD = map[string][]string`, modelled as an
association list from header name to the ordered list of values. -/
abbrev MD : Type := List (String × List String)

/-- `metadata.MD.Copy`: a fresh map whose entries (and value slices) are
copied from the original.  On the association-list model this is an
entrywise copy. -/
def mdCopy : MD → MD
  | [] => []
  | kv :: tl => (kv.1, kv.2.map (fun v => v)) :: mdCopy tl

/-- Go `delete(md, k)`: removes the entry for key `k` (every entry with
that key, in the association-list model). -/
def mdDelete : MD → String → MD
  | [], _ => []
  | kv :: tl, k => if kv.1 = k then mdDelete tl k else kv :: mdDelete tl k

/-- Map lookup `md[k]`: the value slice stored under `k`, if present. -/
def mdLookup : MD → String → Option (List String)
  | [], _ => none
  | kv :: tl, k => if kv.1 = k then some kv.2 else mdLookup tl k

/-- The slice of a Go `context.Context` that `main.go` observes: the
deadline and cancellation state carried by the context chain, plus the
incoming and outgoing metadata values, `none` when the corresponding
key was never attached (a Go nil). -/
structure Context where
  deadline : Option Nat
  canceled : Bool
  incomingMD : Option MD
  outgoingMD : Option MD

/-- `metadata.FromIncomingContext`: returns the incoming metadata and
whether it was present; absent metadata is the Go nil map, which behaves
as the empty map for every operation the director performs. -/
def fromIncomingContext (ctx : Context) : MD × Bool :=
  match ctx.incomingMD with
  | none => ([], false)
  | some md => (md, true)

/-- `metadata.NewOutgoingContext(ctx, md)`: a child context with `md`
attached as outgoing metadata; deadline, cancellation and the incoming
metadata are inherited from the parent unchanged. -/
def newOutgoingContext (ctx : Context) (md : MD) : Context :=
  { ctx with outgoingMD := some md }

/-- `grpc.ClientConn`: the upstream connection handle (dial target). -/
structure ClientConn where
  target : String
deriving DecidableEq

/-- The director closure built in `NewGrpcProxyServer` (main.go:131-137):
reads the incoming metadata (ignoring the `ok` flag), copies it, deletes
the `user-agent` and `connection` keys, and returns the outgoing context,
the captured upstream connection, and a nil error. -/
def director (upstream : ClientConn) (ctx : Context) (_fullMethodName : String) :
    Context × ClientConn × Option String :=
  let metadataIn := (fromIncomingContext ctx).1
  let md := mdCopy metadataIn
  let md := mdDelete md "user-agent"
  let md := mdDelete md "connection"
  (newOutgoingContext ctx md, upstream, none)

/-- The metadata the director attaches to the outgoing context, written
out as a standalone function for use in specifications. -/
def directorMD (ctx : Context) : MD :=
  mdDelete (mdDelete (mdCopy (fromIncomingContext ctx).1) "user-agent") "connection"

/-- The outgoing metadata attached by a director call (empty if none). -/
def directorOutMD (upstream : ClientConn) (ctx : Context) (m : String) : MD :=
  ((director upstream ctx m).1.outgoingMD).getD []

-- Basic lemmas about the metadata model.

theorem mdCopy_eq (md : MD) : mdCopy md = md := by
  induction md with
  | nil => rfl
  | cons kv tl ih => simp [mdCopy, ih]

theorem mdLookup_mdDelete_self (md : MD) (k : String) :
    mdLookup (mdDelete md k) k = none := by
  induction md with
  | nil => rfl
  | cons kv tl ih =>
      by_cases h : kv.1 = k
      · simp [mdDelete, h, ih]
      · simp [mdDelete, mdLookup, h, ih]

theorem mdLookup_mdDelete_ne (md : MD) (k k' : String) (h : k ≠ k') :
    mdLookup (mdDelete md k') k = mdLookup md k := by
  induction md with
  | nil => rfl
  | cons kv tl ih =>
      by_cases hk : kv.1 = k'
      · have hkk : kv.1 ≠ k := fun hc => h (hc ▸ hk)
        simp [mdDelete, mdLookup, hk, hkk, Ne.symm h, ih]
      · by_cases hfound : kv.1 = k
        · simp [mdDelete, mdLookup, hk, hfound, h]
        · simp [mdDelete, mdLookup, hk, hfound, ih]

/-- C1: for every incoming metadata map (including ones containing
`user-agent` and/or `connection`), the director's outgoing metadata
contains neither `user-agent` nor `connection`, and every other key is
preserved exactly, with its ordered list of values. -/
theorem director_strips_reserved_keys (u : ClientConn) (ctx : Context) (m : String) :
    mdLookup (directorOutMD u ctx m) "user-agent" = none ∧
    mdLookup (directorOutMD u ctx m) "connection" = none ∧
    ∀ k : String, k ≠ "user-agent" → k ≠ "connection" →
      mdLookup (directorOutMD u ctx m) k = mdLookup (fromIncomingContext ctx).1 k := by
  have hout : directorOutMD u ctx m = directorMD ctx := rfl
  rw [hout]
  unfold directorMD
  rw [mdCopy_eq]
  refine ⟨?_, ?_, ?_⟩
  · rw [mdLookup_mdDelete_ne _ _ _ (by decide)]
    exact mdLookup_mdDelete_self _ _
  · exact mdLookup_mdDelete_self _ _
  · intro k hua hconn
    rw [mdLookup_mdDelete_ne _ _ _ hconn, mdLookup_mdDelete_ne _ _ _ hua]

/-- A sample connection for concrete evaluations. -/
def connSample : ClientConn := ⟨"127.0.0.1:50051"⟩

/-- A sample incoming context carrying both reserved keys and a
multi-valued application key. -/
def ctxSample : Context :=
  { deadline := some 30
    canceled := false
    incomingMD := some [("user-agent", ["grpc-web-javascript/0.1"]),
                        ("x-token", ["a", "b"]),
                        ("connection", ["keep-alive"])]
    outgoingMD := none }

/-- Witness for C1 at a concrete call. -/
theorem director_strips_reserved_keys_witness :
    mdLookup (directorOutMD connSample ctxSample "/pkg.Svc/Method") "user-agent" = none ∧
    mdLookup (directorOutMD connSample ctxSample "/pkg.Svc/Method") "connection" = none ∧
    mdLookup (directorOutMD connSample ctxSample "/pkg.Svc/Method") "x-token"
      = mdLookup (fromIncomingContext ctxSample).1 "x-token" := by
  have h := director_strips_reserved_keys connSample ctxSample "/pkg.Svc/Method"
  exact ⟨h.1, h.2.1, h.2.2 "x-token" (by decide) (by decide)⟩

/-- Go `strings.Split(s, ",")` restricted to the single-character comma
separator used at main.go:81, on character lists: splitting the empty
string yields one empty field. -/
def splitCommaChars : List Char → List (List Char)
  | [] => [[]]
  | c :: rest =>
    if c = ',' then [] :: splitCommaChars rest
    else match splitCommaChars rest with
      | [] => [[c]]
      | hd :: tl => (c :: hd) :: tl

/-- `strings.Split(MustGetString(cmd, "web-allowed-origins"), ",")`
(main.go:81): the configured comma-separated origin string parsed into
the origin list handed to `NewGrpcWebServer`. -/
def splitOrigins (s : String) : List String :=
  (splitCommaChars s.data).map (fun cs => String.mk cs)

/-- `stringz.SliceContains(xs, s)`: linear scan for an exact string
match. -/
def sliceContains : List String → String → Bool
  | [], _ => false
  | x :: xs, s => if x = s then true else sliceContains xs s

/-- `stringz.SliceEqual(xs, ys)`: equal length and elementwise equal. -/
def sliceEqual : List String → List String → Bool
  | [], [] => true
  | x :: xs, y :: ys => if x = y then sliceEqual xs ys else false
  | _, _ => false

/-- `NewAllowedOriginsFunc` (main.go:169-179): the allow-all predicate
when the configured list is exactly `[""]`, otherwise exact membership
in the configured list. -/
def NewAllowedOriginsFunc (urls : List String) : String → Bool :=
  if sliceEqual urls [""] then fun _ => true
  else fun origin => sliceContains urls origin

theorem sliceEqual_iff (xs ys : List String) : sliceEqual xs ys = true ↔ xs = ys := by
  induction xs generalizing ys with
  | nil => cases ys <;> simp [sliceEqual]
  | cons x xs ih =>
      cases ys with
      | nil => simp [sliceEqual]
      | cons y ys =>
          by_cases h : x = y
          · simp [sliceEqual, h, ih]
          · simp [sliceEqual, h]

/-- C3: `NewAllowedOriginsFunc` returns the allow-all predicate exactly
when the configured list is `[""]` — the result of splitting the empty
comma-separated default — and for every other list it is exact
membership. -/
theorem allowed_origins_allow_all_iff_empty_split :
    splitOrigins "" = [""] ∧
    ∀ (urls : List String) (origin : String),
      NewAllowedOriginsFunc urls origin =
        if urls = [""] then true else sliceContains urls origin := by
  refine ⟨rfl, ?_⟩
  intro urls origin
  by_cases h : urls = [""]
  · subst h
    simp [NewAllowedOriginsFunc, sliceEqual]
  · have hne : sliceEqual urls [""] = false := by
      cases hs : sliceEqual urls [""] with
      | false => rfl
      | true => exact absurd ((sliceEqual_iff urls [""]).mp hs) h
    simp [NewAllowedOriginsFunc, hne, h]

/-- C2: with the unconfigured (empty) comma-separated allow-list every
origin is allowed, including the empty origin; with the allow-list
`["https://a.test"]` exactly that origin is allowed; and for every list
other than the split-empty sentinel the predicate is exact membership
with no wildcard or suffix matching. -/
theorem cors_allowlist_semantics :
    (∀ origin : String, NewAllowedOriginsFunc (splitOrigins "") origin = true) ∧
    NewAllowedOriginsFunc ["https://a.test"] "https://a.test" = true ∧
    NewAllowedOriginsFunc ["https://a.test"] "https://b.test" = false ∧
    ∀ (urls : List String) (origin : String), urls ≠ [""] →
      NewAllowedOriginsFunc urls origin = sliceContains urls origin := by
  refine ⟨fun origin => rfl, by decide, by decide, ?_⟩
  intro urls origin h
  have := (allowed_origins_allow_all_iff_empty_split).2 urls origin
  simpa [h] using this

/-- Witness for C2 at concrete origins and a concrete non-sentinel
allow-list. -/
theorem cors_allowlist_semantics_witness :
    NewAllowedOriginsFunc (splitOrigins "") "" = true ∧
    NewAllowedOriginsFunc ["https://a.test", "https://b.test"] "https://b.test"
      = sliceContains ["https://a.test", "https://b.test"] "https://b.test" :=
  ⟨cors_allowlist_semantics.1 "",
   cors_allowlist_semantics.2.2.2 ["https://a.test", "https://b.test"] "https://b.test"
     (by decide)⟩

/-- C9: a genuinely empty (zero-element) allow-list slice rejects every
origin: the allow-all branch requires the list `[""]`, and membership in
the empty list never holds. -/
theorem allowed_origins_empty_list_rejects_all :
    ∀ origin : String, NewAllowedOriginsFunc [] origin = false :=
  fun _ => rfl

/-- A message of the grpc-proxy raw codec (`proxy.Codec()` from
mwitkow/grpc-proxy): an opaque frame holding uninterpreted payload
bytes. -/
structure Frame where
  payload : List Nat
deriving DecidableEq

/-- A gRPC codec as the program uses it: `Marshal` turns a frame into
wire bytes, `Unmarshal` turns wire bytes into a frame; either may in
general return an error. -/
structure Codec where
  marshal : Frame → Except String (List Nat)
  unmarshal : List Nat → Except String Frame

/-- The frame path of `proxy.Codec()`: `Marshal` returns the frame's
payload unchanged with a nil error, `Unmarshal` stores the wire bytes
as the frame payload unchanged with a nil error. -/
def proxyCodec : Codec where
  marshal := fun f => Except.ok f.payload
  unmarshal := fun data => Except.ok { payload := data }

/-- The slice of a `grpc.Server` that `NewGrpcProxyServer` configures
and the claims observe: the custom codec and the unknown-service
director (the logging/metrics interceptors are observability-only). -/
structure Server where
  codec : Codec
  director : Context → String → Context × ClientConn × Option String

/-- `NewGrpcProxyServer` (main.go:124-151): builds the proxy server with
the raw proxy codec and the director closed over the upstream
connection, and returns a nil error.  The logger argument only feeds the
interceptors and is not modelled. -/
def NewGrpcProxyServer (upstream : ClientConn) : Server × Option String :=
  ({ codec := proxyCodec, director := director upstream }, none)

/-- The slice of `grpcweb.WrappedGrpcServer` that `NewGrpcWebServer`
configures: the wrapped server, CORS-for-registered-endpoints-only
switched off, and the origin predicate. -/
structure WrappedGrpcServer where
  srv : Server
  corsForRegisteredEndpointsOnly : Bool
  originFunc : String → Bool

/-- `NewGrpcWebServer` (main.go:117-122): wraps the gRPC server with the
origin predicate from `NewAllowedOriginsFunc`, returning a nil error. -/
def NewGrpcWebServer (srv : Server) (allowedOrigins : List String) :
    WrappedGrpcServer × Option String :=
  ({ srv := srv
     corsForRegisteredEndpointsOnly := false
     originFunc := NewAllowedOriginsFunc allowedOrigins }, none)

/-- Transport credentials loaded from a certificate file
(`credentials.NewClientTLSFromFile(certPath, "")`). -/
structure Creds where
  certFile : String
deriving DecidableEq

/-- The `grpc.DialOption`s that `NewUpstreamConnection` assembles. -/
inductive DialOption where
  | withTransportCredentials (creds : Creds)
  | withInsecure
  | withCodec (codec : Codec)

/-- The outside world that `NewUpstreamConnection` interacts with:
loading a TLS certificate from disk and dialing the upstream address.
Both are fallible; their outcomes are parameters of the model. -/
structure DialEnv where
  loadClientTLSFromFile : String → Except String Creds
  dial : String → List DialOption → Except String ClientConn

/-- The dial-option list built by `NewUpstreamConnection`
(main.go:154-165): TLS credentials when a certificate path is
configured, otherwise insecure, always followed by the raw proxy
codec. -/
def upstreamDialOptions (env : DialEnv) (certPath : String) :
    Except String (List DialOption) :=
  if certPath ≠ "" then
    match env.loadClientTLSFromFile certPath with
    | Except.error e => Except.error e
    | Except.ok creds =>
        Except.ok [DialOption.withTransportCredentials creds,
                   DialOption.withCodec proxyCodec]
  else
    Except.ok [DialOption.withInsecure, DialOption.withCodec proxyCodec]

/-- `NewUpstreamConnection` (main.go:153-167): builds the dial options
and dials the upstream address, propagating either failure. -/
def NewUpstreamConnection (env : DialEnv) (addr certPath : String) :
    Except String ClientConn :=
  match upstreamDialOptions env certPath with
  | Except.error e => Except.error e
  | Except.ok opts => env.dial addr opts

/-- The configuration flags read by `rootRun`, with the values already
obtained through `MustGetString`/`MustGetBool` on the command whose
flags `main` defines (main.go:52-59). -/
structure Config where
  upstreamAddr : String
  upstreamCertPath : String
  webAllowedOrigins : String
  webAddr : String
  webCertPath : String
  webKeyPath : String
  metricsAddr : String
  debug : Bool

/-- The observable outcome of `rootRun`: either a fatal log (the process
exits before serving) or the servers start with the built grpc-web
handler. -/
inductive RunOutcome where
  | fatal (msg : String)
  | serving (web : WrappedGrpcServer)

/-- Whether the outcome reached the serving stage. -/
def RunOutcome.isServing : RunOutcome → Bool
  | RunOutcome.serving _ => true
  | RunOutcome.fatal _ => false

/-- `rootRun` (main.go:64-115) up to the point where the servers are
started: dial the upstream (fatal on error), build the proxy server
(fatal on error), split the allowed origins, build the grpc-web wrapper
(fatal on error), then serve. -/
def rootRunModel (env : DialEnv) (cfg : Config) : RunOutcome :=
  match NewUpstreamConnection env cfg.upstreamAddr cfg.upstreamCertPath with
  | Except.error _ => RunOutcome.fatal "failed to connect to upstream"
  | Except.ok upstream =>
    match NewGrpcProxyServer upstream with
    | (_, some _) => RunOutcome.fatal "failed to init grpc server"
    | (srv, none) =>
      match NewGrpcWebServer srv (splitOrigins cfg.webAllowedOrigins) with
      | (_, some _) => RunOutcome.fatal "failed to init grpcweb server"
      | (websrv, none) => RunOutcome.serving websrv

/-- C4: every director call returns the single configured backend
connection unmodified — the same connection for every call — with a nil
error, and its entire effect is attaching the copied metadata to the
derived context (the director is a pure function in this embedding: it
performs no I/O). -/
theorem director_single_backend (u : ClientConn) (ctx : Context) (m : String) :
    (director u ctx m).2.1 = u ∧
    (director u ctx m).2.2 = none ∧
    (∀ (ctx₂ : Context) (m₂ : String),
      (director u ctx m).2.1 = (director u ctx₂ m₂).2.1) ∧
    (director u ctx m).1 = { ctx with outgoingMD := some (directorMD ctx) } :=
  ⟨rfl, rfl, fun _ _ => rfl, rfl⟩

/-- C5: the outgoing context is derived from the incoming context, so
the deadline, the cancellation state and the incoming metadata are
forwarded unchanged; only the attached outgoing metadata differs. -/
theorem director_preserves_context (u : ClientConn) (ctx : Context) (m : String) :
    (director u ctx m).1.deadline = ctx.deadline ∧
    (director u ctx m).1.canceled = ctx.canceled ∧
    (director u ctx m).1.incomingMD = ctx.incomingMD ∧
    (director u ctx m).1.outgoingMD = some (directorMD ctx) :=
  ⟨rfl, rfl, rfl, rfl⟩

/-- C8: the director is total (it cannot panic in this embedding), and
for every context — including one with no incoming metadata — and every
method name, including the empty string, it returns a nil error and the
captured backend connection; with no incoming metadata the attached
outgoing metadata is the empty map. -/
theorem director_never_fails (u : ClientConn) (ctx : Context) (m : String) :
    (director u ctx m).2.2 = none ∧
    (director u ctx m).2.1 = u ∧
    (director u { ctx with incomingMD := none } "").2.2 = none ∧
    (director u { ctx with incomingMD := none } "").1.outgoingMD = some [] :=
  ⟨rfl, rfl, rfl, rfl⟩

/-- C7: the proxy codec is the codec installed by `NewGrpcProxyServer`
and appended to the upstream dial options, and on every byte payload its
marshal and unmarshal are identity transforms that never fail, in both
composition orders. -/
theorem proxy_codec_identity :
    (∀ upstream : ClientConn, (NewGrpcProxyServer upstream).1.codec = proxyCodec) ∧
    (∀ env : DialEnv, upstreamDialOptions env ""
        = Except.ok [DialOption.withInsecure, DialOption.withCodec proxyCodec]) ∧
    ∀ p : List Nat,
      proxyCodec.marshal { payload := p } = Except.ok p ∧
      proxyCodec.unmarshal p = Except.ok { payload := p } ∧
      (proxyCodec.unmarshal p).bind proxyCodec.marshal = Except.ok p ∧
      (proxyCodec.marshal { payload := p }).bind proxyCodec.unmarshal
        = Except.ok { payload := p } :=
  ⟨fun _ => rfl, fun _ => rfl, fun _ => ⟨rfl, rfl, rfl, rfl⟩⟩

/-- C6: when dialing the upstream fails, `rootRun` ends in the fatal
"failed to connect to upstream" log and never reaches the serving stage;
when dialing succeeds, the process proceeds to start serving. -/
theorem startup_fatal_on_dial_error (env : DialEnv) (cfg : Config) :
    (∀ e : String,
      NewUpstreamConnection env cfg.upstreamAddr cfg.upstreamCertPath = Except.error e →
        rootRunModel env cfg = RunOutcome.fatal "failed to connect to upstream") ∧
    ∀ c : ClientConn,
      NewUpstreamConnection env cfg.upstreamAddr cfg.upstreamCertPath = Except.ok c →
        (rootRunModel env cfg).isServing = true := by
  constructor
  · intro e he
    simp [rootRunModel, he]
  · intro c hc
    simp [rootRunModel, hc, NewGrpcProxyServer, NewGrpcWebServer, RunOutcome.isServing]

/-- A dial environment in which the upstream is unreachable. -/
def envDialRefused : DialEnv :=
  { loadClientTLSFromFile := fun p => Except.ok { certFile := p }
    dial := fun _ _ => Except.error "connection refused" }

/-- A dial environment in which dialing succeeds. -/
def envDialOk : DialEnv :=
  { loadClientTLSFromFile := fun p => Except.ok { certFile := p }
    dial := fun addr _ => Except.ok { target := addr } }

/-- The default flag configuration from main.go:52-59. -/
def cfgDefault : Config :=
  { upstreamAddr := "127.0.0.1:50051"
    upstreamCertPath := ""
    webAllowedOrigins := ""
    webAddr := ":80"
    webCertPath := ""
    webKeyPath := ""
    metricsAddr := ":9090"
    debug := false }

/-- Witness for C6 in both directions at concrete environments. -/
theorem startup_fatal_on_dial_error_witness :
    rootRunModel envDialRefused cfgDefault
      = RunOutcome.fatal "failed to connect to upstream" ∧
    (rootRunModel envDialOk cfgDefault).isServing = true :=
  ⟨(startup_fatal_on_dial_error envDialRefused cfgDefault).1 "connection refused" rfl,
   (startup_fatal_on_dial_error envDialOk cfgDefault).2 { target := "127.0.0.1:50051" } rfl⟩

/-- The opening brace character. -/
def lbrace : Char := Char.ofNat 123

/-- The closing brace character. -/
def rbrace : Char := Char.ofNat 125

/-- Go `os.isShellSpecialVar`: the one-character shell parameter
names. -/
def isShellSpecialVar (c : Char) : Bool :=
  c == '*' || c == '#' || c == '$' || c == '@' || c == '!' || c == '?' ||
  c == '-' || c.isDigit

/-- Go `os.isAlphaNum`: underscore, ASCII digit or ASCII letter. -/
def isAlphaNum (c : Char) : Bool :=
  c == '_' || c.isDigit || c.isAlpha

/-- Index of the first closing brace, counting from `start`. -/
def findRBrace : List Char → Nat → Option Nat
  | [], _ => none
  | c :: rest, i => if c == rbrace then some i else findRBrace rest (i + 1)

/-- The brace-delimited arm of Go `os.getShellName`: scan `rest`
(the input after the `$`) for the closing brace; `rest` starts with the
opening brace already consumed by the caller pattern, so indices count
from 1. -/
def braceScan (rest : List Char) : List Char × Nat :=
  match findRBrace rest 1 with
  | some i => if i = 1 then ([], 2) else (rest.take (i - 1), i + 1)
  | none => ([], 1)

/-- Go `os.getShellName(s)`: the variable name following a `$` and the
number of input characters it spans (`${name}`, a one-character special
shell parameter, or a maximal alphanumeric run). -/
def getShellName (s : List Char) : List Char × Nat :=
  match s with
  | [] => ([], 0)
  | c :: rest =>
    if c == lbrace then
      match rest with
      | c1 :: c2 :: _ =>
          if isShellSpecialVar c1 && c2 == rbrace then ([c1], 3)
          else braceScan rest
      | _ => braceScan rest
    else if isShellSpecialVar c then ([c], 1)
    else
      let name := s.takeWhile isAlphaNum
      (name, name.length)

/-- Go `os.Expand(s, mapping)` as a fuel-indexed loop; every step
consumes at least one input character, so fuel equal to the input length
never runs out and the out-of-fuel arm is unreachable. -/
def expandLoop (mapping : String → String) : Nat → List Char → List Char
  | _, [] => []
  | 0, l => l
  | fuel + 1, c :: rest =>
    if c == '$' then
      match rest with
      | [] => ['$']
      | _ :: _ =>
        let nw := getShellName rest
        if nw.1 = [] ∧ 0 < nw.2 then expandLoop mapping fuel (rest.drop nw.2)
        else if nw.1 = [] then '$' :: expandLoop mapping fuel rest
        else (mapping (String.mk nw.1)).data ++ expandLoop mapping fuel (rest.drop nw.2)
    else c :: expandLoop mapping fuel rest

/-- Go `os.Expand(s, mapping)`: substitutes `$name` and brace-delimited
references through `mapping`; `os.ExpandEnv(s)` is `Expand(s,
os.Getenv)`, where `os.Getenv` returns the empty string for unset
variables. -/
def expand (s : String) (mapping : String → String) : String :=
  String.mk (expandLoop mapping s.data.length s.data)

/-- A pflag flag value: `main` defines string flags and one bool flag. -/
inductive FlagVal where
  | str (v : String)
  | boolean (v : Bool)
deriving DecidableEq

/-- A pflag `FlagSet`: the flags defined on the command, with their
current values. -/
abbrev FlagSet : Type := List (String × FlagVal)

/-- `pflag.FlagSet.Lookup`. -/
def flagLookup : FlagSet → String → Option FlagVal
  | [], _ => none
  | kv :: tl, k => if kv.1 = k then some kv.2 else flagLookup tl k

/-- `pflag.FlagSet.GetString`: errors when the flag is not defined, and
also when it is defined with a value type other than string
(`getFlagType` compares the flag's type with "string"). -/
def GetString (fs : FlagSet) (k : String) : Except String String :=
  match flagLookup fs k with
  | none => Except.error ("flag accessed but not defined: " ++ k)
  | some (FlagVal.boolean _) =>
      Except.error "trying to get string value of flag of type bool"
  | some (FlagVal.str v) => Except.ok v

/-- `MustGetString` (main.go:189-195): panics (`none`) when `GetString`
errors, otherwise returns the flag value passed through
`os.ExpandEnv`. -/
def MustGetString (getenv : String → String) (fs : FlagSet) (k : String) :
    Option String :=
  match GetString fs k with
  | Except.error _ => none
  | Except.ok v => some (expand v getenv)

/-- Whether an optional flag value is a string-typed flag. -/
def isStringFlag : Option FlagVal → Bool
  | some (FlagVal.str _) => true
  | _ => false

/-- The flags `main` defines on the root command (main.go:52-59), at
their default values. -/
def rootCmdFlags : FlagSet :=
  [("upstream-addr", FlagVal.str "127.0.0.1:50051"),
   ("upstream-cert-path", FlagVal.str ""),
   ("web-addr", FlagVal.str ":80"),
   ("web-key-path", FlagVal.str ""),
   ("web-cert-path", FlagVal.str ""),
   ("web-allowed-origins", FlagVal.str ""),
   ("metrics-addr", FlagVal.str ":9090"),
   ("debug", FlagVal.boolean false)]

/-- A sample process environment defining only `HOST`. -/
def sampleGetenv : String → String :=
  fun n => if n = "HOST" then "127.0.0.1" else ""

/-- C10 counterexample: the root command defines `debug` (as a bool
flag), yet `MustGetString` panics on it, because `pflag.GetString` also
errors on a defined flag of a non-string type; this refutes "panics only
when the named flag is not defined on the command". -/
theorem mustGetString_panics_on_defined_bool_flag :
    flagLookup rootCmdFlags "debug" ≠ none ∧
    MustGetString (fun _ => "") rootCmdFlags "debug" = none :=
  ⟨by decide, rfl⟩

/-- C10 (amended): every value read through `MustGetString` is passed
through environment-variable expansion before use — dollar-name and
brace-delimited references are substituted from the process
environment — and `MustGetString` panics exactly when the named flag is
not defined on the command as a string-typed flag (not defined at all,
or defined with a non-string value type). -/
theorem mustGetString_expands_env (getenv : String → String) (fs : FlagSet) (k : String) :
    (∀ v : String, flagLookup fs k = some (FlagVal.str v) →
        MustGetString getenv fs k = some (expand v getenv)) ∧
    (MustGetString getenv fs k).isSome = isStringFlag (flagLookup fs k) ∧
    expand "$HOST:50051" sampleGetenv = "127.0.0.1:50051" ∧
    expand "${HOST}:50051" sampleGetenv = "127.0.0.1:50051" := by
  refine ⟨?_, ?_, by decide, by decide⟩
  · intro v hv
    simp [MustGetString, GetString, hv]
  · cases h : flagLookup fs k with
    | none => simp [MustGetString, GetString, h, isStringFlag]
    | some fv =>
        cases fv with
        | str v => simp [MustGetString, GetString, h, isStringFlag]
        | boolean b => simp [MustGetString, GetString, h, isStringFlag]

/-- Witness for C10 (amended) at a concrete flag set and key. -/
theorem mustGetString_expands_env_witness :
    MustGetString sampleGetenv [("upstream-addr", FlagVal.str "$HOST:50051")]
        "upstream-addr"
      = some (expand "$HOST:50051" sampleGetenv) :=
  (mustGetString_expands_env sampleGetenv
      [("upstream-addr", FlagVal.str "$HOST:50051")] "upstream-addr").1
    "$HOST:50051" rfl
